import Mathlib

/-!
Shallow embedding of the recipe-chatbot repository, covering the synthetic
query generation pipeline (`homeworks/hw2/my_implementation/generate_synthetic_queries.py`)
and the chat backend wrapper (`backend/utils.py`), together with theorems
settling the specification claims about them.

External LLM calls are modelled as explicit parameters: a function giving the
outcome (parsed value or raised exception) of each attempt or sub-request.
Thread-pool completion order is modelled as an explicit list of task indices,
universally quantified in theorems that must hold for every completion order.
-/

namespace RecipeChatbot

/-! ## Data model (`generate_synthetic_queries.py`, lines 17-34) -/

/-- Embeds the pydantic model `DimensionTuple` (lines 17-21). -/
structure DimensionTuple where
  occasion : String
  author_style : String
  ingredients : List String
  cooking_method : String
deriving DecidableEq, Repr

/-- Embeds the pydantic model `QueryWithDimensions` (lines 23-28).
`is_realistic_and_kept` defaults to 1, `notes_for_filtering` to the empty
string, as in the source. -/
structure QueryWithDimensions where
  id : String
  query : String
  dimension_tuple : DimensionTuple
  is_realistic_and_kept : Int := 1
  notes_for_filtering : String := ""
deriving DecidableEq, Repr

/-- Embeds the pydantic model `DimensionTuplesList` (lines 30-31). -/
structure DimensionTuplesList where
  tuples : List DimensionTuple
deriving DecidableEq, Repr

/-- Embeds the pydantic model `QueriesList` (lines 33-34). -/
structure QueriesList where
  queries : List String
deriving DecidableEq, Repr

/-! ## Canonical serialization (pydantic `model_dump_json`)

`model_dump_json` emits compact JSON with the fields in declaration order.
We model JSON string escaping for the standard escaped characters; the
deduplication claims depend only on the serialization being a fixed
deterministic function of the tuple. -/

/-- JSON escaping of a single character as performed when serializing a
Python string to JSON. -/
def escapeJsonChar (c : Char) : String :=
  if c = '"' then "\\\""
  else if c = '\\' then "\\\\"
  else if c = '\n' then "\\n"
  else if c = '\t' then "\\t"
  else if c = '\r' then "\\r"
  else String.singleton c

/-- JSON escaping of a whole string. -/
def jsonEscape (s : String) : String :=
  String.join (s.toList.map escapeJsonChar)

/-- A JSON string literal: the escaped content between double quotes. -/
def jsonStr (s : String) : String :=
  "\"" ++ jsonEscape s ++ "\""

/-- A JSON array of string literals. -/
def jsonStrList (l : List String) : String :=
  "[" ++ String.intercalate "," (l.map jsonStr) ++ "]"

/-- Embeds `DimensionTuple.model_dump_json()`: compact JSON with the fields
in declaration order (occasion, author_style, ingredients, cooking_method). -/
def DimensionTuple.model_dump_json (t : DimensionTuple) : String :=
  "\x7b\"occasion\":" ++ jsonStr t.occasion ++
  ",\"author_style\":" ++ jsonStr t.author_style ++
  ",\"ingredients\":" ++ jsonStrList t.ingredients ++
  ",\"cooking_method\":" ++ jsonStr t.cooking_method ++ "\x7d"

/-! ## Structured LLM caller (`call_llm`, lines 42-56)

```
def call_llm(messages, response_format):
    max_retries = 3
    for attempt in range(max_retries):
        try:
            response = completion(...)
            return response_format(**json.loads(...))
        except Exception as e:
            if attempt == max_retries - 1:
                raise e
            time.sleep(1)  # Wait before retry
```

The body of one attempt (network call + JSON parse + schema validation) is
modelled abstractly as `attempts : Nat → Except String α`: `attempts i` is the
outcome of the `i`-th attempt, `.ok` the parsed result, `.error` the raised
exception. The embedded function returns the outcome together with the number
of completion calls made and the number of 1-second sleeps performed, so that
the retry count and inter-attempt delay are observable. -/

/-- The retry loop of `call_llm`, iterating over the remaining attempt
indices (`range(max_retries)` in the source). Returns
(outcome, number of calls made, number of 1-second sleeps).
The `[]` case corresponds to `range(max_retries)` being empty, in which case
the Python function would return `None` without any call; it is unreachable
for `max_retries = 3`. -/
def call_llm_loop {α : Type} (attempts : Nat → Except String α)
    (max_retries : Nat) : List Nat → Except String α × Nat × Nat
  | [] => (.error "", 0, 0)
  | attempt :: rest =>
    match attempts attempt with
    | .ok a => (.ok a, 1, 0)
    | .error e =>
      if attempt = max_retries - 1 then
        (.error e, 1, 0)
      else
        let r := call_llm_loop attempts max_retries rest
        (r.1, r.2.1 + 1, r.2.2 + 1)

/-- Embeds `call_llm` with `max_retries = 3`: runs the retry loop over the
attempt indices `[0, 1, 2]`. -/
def call_llm {α : Type} (attempts : Nat → Except String α) :
    Except String α × Nat × Nat :=
  call_llm_loop attempts 3 (List.range 3)

/-! ## Dimension tuple generator (`generate_dimension_tuples`, lines 58-180)

Five sub-requests are submitted to a thread pool; the orchestrator then calls
`future.result()` on each future in submission order, which re-raises the
exception of a failed sub-request. The whole block (collection, merge and
deduplication) sits inside one `try`, whose `except` prints an error and
returns the empty list. A sub-request outcome is `outcomes i`, with `.error`
standing for a raised exception. -/

/-- The collection loop (lines 158-160): `for future in futures:
responses.append(future.result())`. The first failed future, in submission
order, aborts collection by raising. -/
def collect_futures (outcomes : Fin 5 → Except Unit DimensionTuplesList) :
    List (Fin 5) → Except Unit (List DimensionTuplesList)
  | [] => .ok []
  | i :: rest =>
    match outcomes i with
    | .error e => .error e
    | .ok r =>
      match collect_futures outcomes rest with
      | .error e => .error e
      | .ok rs => .ok (r :: rs)

/-- The deduplication loop of `generate_dimension_tuples` (lines 166-174):
walk the merged list, keep a `seen` set of canonical serializations
(`tup.model_dump_json()`), append a tuple to the output iff its serialization
has not been seen, then add the serialization to `seen`. `seen` is modelled
as the list of serializations added so far. -/
def dedup_go : List DimensionTuple → List String → List DimensionTuple
  | [], _ => []
  | tup :: rest, seen =>
    let tuple_str := tup.model_dump_json
    if tuple_str ∈ seen then
      dedup_go rest seen
    else
      tup :: dedup_go rest (tuple_str :: seen)

/-- The deduplication step applied to the merged list of all tuples, with an
initially empty `seen` set (lines 166-174). -/
def dedup_tuples (all_tuples : List DimensionTuple) : List DimensionTuple :=
  dedup_go all_tuples []

/-- Embeds `generate_dimension_tuples` (lines 149-180): submit 5 sub-requests,
collect all results (the collection re-raises the first failure), merge with
`extend` in submission order, deduplicate; the surrounding `try`/`except`
catches any raised exception, prints an error and returns `[]`. -/
def generate_dimension_tuples
    (outcomes : Fin 5 → Except Unit DimensionTuplesList) : List DimensionTuple :=
  match collect_futures outcomes (List.finRange 5) with
  | .error _ => []
  | .ok responses =>
    let all_tuples := List.foldl (fun acc response => acc ++ response.tuples) [] responses
    dedup_tuples all_tuples

/-! ## Query synthesizer (`generate_queries_for_tuple`, lines 182-231, and
`generate_queries_parallel`, lines 233-266)

`generate_queries_for_tuple` calls `call_llm` for one tuple and catches every
exception, returning `[]` on failure; the outcome of its `call_llm` call is
the explicit parameter. `generate_queries_parallel` submits one task per
tuple, then processes the futures in completion order (`as_completed`),
wrapping each returned query string in a `QueryWithDimensions` with a shared
counter `query_id` starting at 1. The completion order is the explicit
parameter `order`. -/

/-- Embeds `generate_queries_for_tuple` (lines 226-231): return the parsed
list of queries, or `[]` if the `call_llm` call raised (the `except` branch
prints and returns `[]`). -/
def generate_queries_for_tuple (call_result : Except Unit QueriesList) :
    List String :=
  match call_result with
  | .ok response => response.queries
  | .error _ => []

/-- Fallback tuple used to give list indexing a total type; every theorem
about the aggregator constrains the completion order to in-range indices,
where the fallback is never consulted (Python indexing would raise instead,
but indices produced by `enumerate` are always in range). -/
def dfltTuple : DimensionTuple := ⟨"", "", [], ""⟩

/-- Zero-padding of a decimal numeral to at least 3 digits, as the Python
format specifier `03d` does for non-negative values. -/
def pad3 (n : Nat) : String :=
  let s := toString n
  if s.length < 3 then String.mk (List.replicate (3 - s.length) '0') ++ s else s

/-- The ID string built on line 256: "SYN" plus the counter rendered with the Python format specifier 03d. -/
def synFormat (query_id : Nat) : String := "SYN" ++ pad3 query_id

/-- The inner `for query in queries` loop (lines 254-260): wrap each query
string of one completed task, incrementing `query_id` once per record. -/
def emit_queries (dim_tuple : DimensionTuple) :
    List String → Nat → List QueryWithDimensions
  | [], _ => []
  | query :: rest, query_id =>
    ⟨synFormat query_id, query, dim_tuple, 1, ""⟩ ::
      emit_queries dim_tuple rest (query_id + 1)

/-- The `as_completed` merge loop of `generate_queries_parallel`
(lines 248-264): for each completed task index, fetch its queries (never a
raise, since `generate_queries_for_tuple` catches internally — the `except`
branch of the merge loop is dead code), skip empty results (`if queries:`),
wrap the rest with the running counter. -/
def merge_completed (dimension_tuples : List DimensionTuple)
    (results : Nat → Except Unit QueriesList) :
    List Nat → Nat → List QueryWithDimensions
  | [], _ => []
  | tuple_idx :: rest, query_id =>
    let queries := generate_queries_for_tuple (results tuple_idx)
    if queries.isEmpty then
      merge_completed dimension_tuples results rest query_id
    else
      emit_queries (dimension_tuples.getD tuple_idx dfltTuple) queries query_id ++
        merge_completed dimension_tuples results rest (query_id + queries.length)

/-- Embeds `generate_queries_parallel` (lines 233-266): run the merge loop
over the completion order with `query_id` starting at 1. `results i` is the
outcome of the `call_llm` call made by the sub-request for tuple index `i`. -/
def generate_queries_parallel (dimension_tuples : List DimensionTuple)
    (results : Nat → Except Unit QueriesList) (order : List Nat) :
    List QueryWithDimensions :=
  merge_completed dimension_tuples results order 1

/-! ## Persister (`save_queries_to_csv`, lines 268-288) -/

/-- One row of the output CSV (lines 275-284). -/
structure CsvRow where
  id : String
  query : String
  dimension_tuple_json : String
  is_realistic_and_kept : Int
  notes_for_filtering : String
deriving DecidableEq, Repr

/-- The row built from one record (lines 276-282). -/
def toCsvRow (q : QueryWithDimensions) : CsvRow :=
  ⟨q.id, q.query, q.dimension_tuple.model_dump_json,
    q.is_realistic_and_kept, q.notes_for_filtering⟩

/-- Observable outcome of `save_queries_to_csv`. The source never raises on
empty input — it prints "No queries to save." and returns — but the outcome
type keeps a constructor for a raised `EmptyResultError` so that the spec
claim about raising can be stated and compared against the code. -/
inductive SaveOutcome where
  | raisedEmptyResultError
  | printedNoWrite
  | wroteFile (rows : List CsvRow)
deriving DecidableEq, Repr

/-- Embeds `save_queries_to_csv` (lines 268-288): `if not queries:` print and
return without writing; otherwise build one row per record in order and write
the CSV. -/
def save_queries_to_csv (queries : List QueryWithDimensions) : SaveOutcome :=
  if queries.isEmpty then
    .printedNoWrite
  else
    .wroteFile (queries.map toCsvRow)

/-! ## Chat backend (`backend/utils.py`)

`get_agent_response` (lines 68-103) normalizes the history — prepending the
fixed system prompt when the history is empty or its first message is not a
system message — sends the normalized history to `litellm.completion`, strips
the reply, and returns the normalized history with one assistant message
appended. The completion call is the explicit parameter `complete`.

The source file contains an unresolved git merge conflict inside the
`SYSTEM_PROMPT` string constant (lines 21-59); the constant is therefore
abbreviated here to a representative opening segment shared by both branches of the
conflict. Every claim about the backend depends only on the prompt being one
fixed string attached to a message with role "system", never on its text. -/

/-- One chat message: a dict with keys "role" and "content". -/
structure Message where
  role : String
  content : String
deriving DecidableEq, Repr

/-- The fixed default system prompt (`SYSTEM_PROMPT`, lines 20-60,
abbreviated; see the section comment). -/
def SYSTEM_PROMPT : String :=
  "You are an expert chef recommending delicious and useful recipes."

/-- The fixed system message injected by the backend. -/
def systemMessage : Message := ⟨"system", SYSTEM_PROMPT⟩

/-- The history normalization of `get_agent_response` (lines 85-89):
`if not messages or messages[0]["role"] != "system"` prepend the system
message, else keep the history as is. -/
def normalize_history (messages : List Message) : List Message :=
  match messages with
  | [] => [systemMessage]
  | m :: _ => if m.role ≠ "system" then systemMessage :: messages else messages

/-- Embeds `get_agent_response` (lines 68-103): normalize the history, call
the model on it (`complete`), strip the reply, append one assistant message
and return the result. -/
def get_agent_response (complete : List Message → String)
    (messages : List Message) : List Message :=
  let current_messages := normalize_history messages
  let assistant_reply_content := (complete current_messages).trim
  current_messages ++ [⟨"assistant", assistant_reply_content⟩]

/-! ## Spec-side definitions

These definitions follow the words of the specification claims and are
compared with the embedded source functions in refinement theorems. -/

/-- Spec-side deduplication following claim C7: keep, in order, the first
occurrence of each distinct canonical serialization; drop every later tuple
whose serialization is byte-identical to an earlier one. -/
def dedupFirst : List DimensionTuple → List DimensionTuple
  | [] => []
  | t :: ts =>
    t :: dedupFirst (ts.filter fun u => u.model_dump_json ≠ t.model_dump_json)
termination_by l => l.length
decreasing_by
  simp only [List.length_cons]
  exact Nat.lt_succ_of_le (List.length_filter_le _ _)

/-- Spec-side view of the aggregator input: the flat list of
(producing tuple, query string) pairs, one contiguous block per sub-request
in completion order, each block in the order the sub-request returned the
query strings. -/
def flatPairs (dimension_tuples : List DimensionTuple)
    (results : Nat → Except Unit QueriesList) :
    List Nat → List (DimensionTuple × String)
  | [] => []
  | i :: rest =>
    (generate_queries_for_tuple (results i)).map
        (fun s => (dimension_tuples.getD i dfltTuple, s)) ++
      flatPairs dimension_tuples results rest

/-- Spec-side numbering: wrap the flat pairs with consecutive counter values
starting at `n`, each record carrying the id "SYN" plus the counter
zero-padded to at least 3 digits. -/
def numberFrom : Nat → List (DimensionTuple × String) → List QueryWithDimensions
  | _, [] => []
  | n, p :: rest => ⟨synFormat n, p.2, p.1, 1, ""⟩ :: numberFrom (n + 1) rest

/-- Spec-side expected aggregator output per claim C10: flat pairs in
completion-order blocks, numbered consecutively from 1. -/
def expectedAggregate (dimension_tuples : List DimensionTuple)
    (results : Nat → Except Unit QueriesList) (order : List Nat) :
    List QueryWithDimensions :=
  numberFrom 1 (flatPairs dimension_tuples results order)

/-! ## Concrete inputs used by witnesses and counterexamples -/

/-- Concrete sub-request outcomes for the dimension tuple generator in which
exactly the sub-request at index 2 fails and the other four return one tuple
each. -/
def c1Outcome (i : Fin 5) : Except Unit DimensionTuplesList :=
  if i.val = 2 then .error ()
  else .ok ⟨[⟨"occ" ++ toString i.val, "author", ["rice"], "roasting"⟩]⟩

/-- A concrete dimension tuple distinct from `dfltTuple`. -/
def c8Tup : DimensionTuple := ⟨"brunch", "Eric Kim", ["kimchi"], "grilling"⟩

/-- Three concrete dimension tuples for aggregator witnesses. -/
def cTuples : List DimensionTuple :=
  [⟨"weeknight", "Eric Kim", ["tofu"], "grilling"⟩,
   ⟨"brunch", "Hetty McKinnon", ["oats"], "no bake"⟩,
   ⟨"dessert", "Yotam Ottolenghi", ["chocolate"], "no cook"⟩]

/-- Concrete per-tuple outcomes in which exactly the sub-request for tuple
index 0 fails and each other sub-request returns two query strings. -/
def cResultsOneFail : Nat → Except Unit QueriesList := fun i =>
  if i = 0 then .error ()
  else .ok ⟨["q" ++ toString i ++ "a", "q" ++ toString i ++ "b"]⟩

/-! ## Helper lemmas about deduplication -/

lemma dedup_go_cons (t : DimensionTuple) (ts : List DimensionTuple)
    (seen : List String) :
    dedup_go (t :: ts) seen =
      if t.model_dump_json ∈ seen then dedup_go ts seen
      else t :: dedup_go ts (t.model_dump_json :: seen) := rfl

lemma dedup_go_sublist (l : List DimensionTuple) :
    ∀ seen, (dedup_go l seen).Sublist l := by
  induction l with
  | nil => intro _; exact List.Sublist.refl []
  | cons t ts ih =>
    intro seen
    rw [dedup_go_cons]
    by_cases h : t.model_dump_json ∈ seen
    · rw [if_pos h]; exact (ih seen).cons t
    · rw [if_neg h]; exact (ih (t.model_dump_json :: seen)).cons₂ t

lemma dedup_go_nodup (l : List DimensionTuple) :
    ∀ seen, ((dedup_go l seen).map DimensionTuple.model_dump_json).Nodup ∧
      ∀ s ∈ (dedup_go l seen).map DimensionTuple.model_dump_json, s ∉ seen := by
  induction l with
  | nil => intro seen; simp [dedup_go]
  | cons t ts ih =>
    intro seen
    rw [dedup_go_cons]
    by_cases h : t.model_dump_json ∈ seen
    · rw [if_pos h]; exact ih seen
    · rw [if_neg h]
      obtain ⟨hnd, hout⟩ := ih (t.model_dump_json :: seen)
      refine ⟨?_, ?_⟩
      · simp only [List.map_cons, List.nodup_cons]
        exact ⟨fun hmem => (hout _ hmem) (List.mem_cons_self _ _), hnd⟩
      · intro s hs
        simp only [List.map_cons, List.mem_cons] at hs
        rcases hs with rfl | hs
        · exact h
        · exact fun hk => (hout s hs) (List.mem_cons_of_mem _ hk)

lemma mem_map_dedup_go (l : List DimensionTuple) :
    ∀ seen s, s ∈ (dedup_go l seen).map DimensionTuple.model_dump_json ↔
      s ∈ l.map DimensionTuple.model_dump_json ∧ s ∉ seen := by
  induction l with
  | nil => intro seen s; simp [dedup_go]
  | cons t ts ih =>
    intro seen s
    rw [dedup_go_cons]
    by_cases h : t.model_dump_json ∈ seen
    · rw [if_pos h, ih]
      simp only [List.map_cons, List.mem_cons]
      constructor
      · rintro ⟨hs, hns⟩; exact ⟨Or.inr hs, hns⟩
      · rintro ⟨hs | hs, hns⟩
        · exact absurd (hs ▸ h) hns
        · exact ⟨hs, hns⟩
    · rw [if_neg h]
      simp only [List.map_cons, List.mem_cons, ih, List.mem_cons]
      constructor
      · rintro (rfl | ⟨hs, hns⟩)
        · exact ⟨Or.inl rfl, h⟩
        · exact ⟨Or.inr hs, fun hk => hns (Or.inr hk)⟩
      · rintro ⟨rfl | hs, hns⟩
        · exact Or.inl rfl
        · by_cases hst : s = t.model_dump_json
          · exact Or.inl hst
          · exact Or.inr ⟨hs, fun hk => hk.elim hst hns⟩

lemma dedup_go_eq_dedupFirst (l : List DimensionTuple) :
    ∀ seen, dedup_go l seen =
      dedupFirst (l.filter fun t => t.model_dump_json ∉ seen) := by
  induction l with
  | nil => intro seen; simp [dedup_go, dedupFirst]
  | cons t ts ih =>
    intro seen
    rw [dedup_go_cons]
    by_cases h : t.model_dump_json ∈ seen
    · rw [if_pos h, List.filter_cons_of_neg (by simpa using h)]
      exact ih seen
    · rw [if_neg h, List.filter_cons_of_pos (by simpa using h), dedupFirst,
        ih (t.model_dump_json :: seen)]
      congr 1
      apply congrArg dedupFirst
      rw [List.filter_filter]
      apply List.filter_congr
      intro u _
      rw [← Bool.decide_and, decide_eq_decide]
      simp [not_or]

lemma dedup_go_of_fresh (l : List DimensionTuple) :
    ∀ seen, ((l.map DimensionTuple.model_dump_json).Nodup) →
      (∀ t ∈ l, t.model_dump_json ∉ seen) → dedup_go l seen = l := by
  induction l with
  | nil => intro seen _ _; rfl
  | cons t ts ih =>
    intro seen hnd hfresh
    rw [dedup_go_cons, if_neg (hfresh t (List.mem_cons_self _ _))]
    simp only [List.map_cons, List.nodup_cons] at hnd
    congr 1
    refine ih _ hnd.2 ?_
    intro u hu
    simp only [List.mem_cons]
    rintro (heq | hmem)
    · exact hnd.1 (heq ▸ List.mem_map_of_mem _ hu)
    · exact hfresh u (List.mem_cons_of_mem _ hu) hmem

/-! ## Helper lemmas about the aggregator -/

lemma numberFrom_append (ps qs : List (DimensionTuple × String)) : ∀ n,
    numberFrom n (ps ++ qs) = numberFrom n ps ++ numberFrom (n + ps.length) qs := by
  induction ps with
  | nil => intro n; simp [numberFrom]
  | cons p ps ih =>
    intro n
    have harith : n + 1 + ps.length = n + (ps.length + 1) := by omega
    simp [numberFrom, ih (n + 1), harith]

lemma emit_queries_eq_numberFrom (dim_tuple : DimensionTuple)
    (queries : List String) : ∀ n,
    emit_queries dim_tuple queries n =
      numberFrom n (queries.map fun s => (dim_tuple, s)) := by
  induction queries with
  | nil => intro n; rfl
  | cons q qs ih => intro n; simp [emit_queries, numberFrom, ih]

lemma merge_completed_eq_numberFrom (dimension_tuples : List DimensionTuple)
    (results : Nat → Except Unit QueriesList) (order : List Nat) : ∀ n,
    merge_completed dimension_tuples results order n =
      numberFrom n (flatPairs dimension_tuples results order) := by
  induction order with
  | nil => intro n; rfl
  | cons i rest ih =>
    intro n
    by_cases h : (generate_queries_for_tuple (results i)).isEmpty
    · have hq : generate_queries_for_tuple (results i) = [] := by
        simpa [List.isEmpty_iff] using h
      simp [merge_completed, flatPairs, h, hq, ih]
    · simp only [merge_completed, flatPairs, if_neg h,
        emit_queries_eq_numberFrom, ih, numberFrom_append, List.length_map]

lemma map_proj_numberFrom (ps : List (DimensionTuple × String)) : ∀ n,
    (numberFrom n ps).map (fun r => (r.dimension_tuple, r.query)) = ps := by
  induction ps with
  | nil => intro n; rfl
  | cons p ps ih => intro n; simp [numberFrom, ih]

lemma numberFrom_get_id (ps : List (DimensionTuple × String)) : ∀ n k
    (hk : k < (numberFrom n ps).length),
    ((numberFrom n ps).get ⟨k, hk⟩).id = synFormat (n + k) := by
  induction ps with
  | nil => intro n k hk; simp [numberFrom] at hk
  | cons p ps ih =>
    intro n k hk
    cases k with
    | zero => simp [numberFrom]
    | succ k =>
      have hk2 : k < (numberFrom (n + 1) ps).length := Nat.lt_of_succ_lt_succ hk
      have hstep : ((numberFrom n (p :: ps)).get ⟨k + 1, hk⟩).id =
          ((numberFrom (n + 1) ps).get ⟨k, hk2⟩).id := rfl
      rw [hstep, ih (n + 1) k hk2]
      exact congrArg synFormat (by omega)

lemma mem_flatPairs (dimension_tuples : List DimensionTuple)
    (results : Nat → Except Unit QueriesList) (order : List Nat)
    (p : DimensionTuple × String) :
    p ∈ flatPairs dimension_tuples results order ↔
      ∃ i ∈ order, p.1 = dimension_tuples.getD i dfltTuple ∧
        p.2 ∈ generate_queries_for_tuple (results i) := by
  induction order with
  | nil => simp [flatPairs]
  | cons i rest ih =>
    simp only [flatPairs, List.mem_append, List.mem_map, ih, List.mem_cons]
    constructor
    · rintro (⟨s, hs, rfl⟩ | ⟨j, hj, h1, h2⟩)
      · exact ⟨i, Or.inl rfl, rfl, hs⟩
      · exact ⟨j, Or.inr hj, h1, h2⟩
    · rintro ⟨j, hj | hj, h1, h2⟩
      · subst hj
        exact Or.inl ⟨p.2, h2, by rw [← h1]⟩
      · exact Or.inr ⟨j, hj, h1, h2⟩

/-! ## Claim theorems -/

/-- Claim C1 (code-bug evidence): when exactly one of the 5 parallel
sub-requests fails, the source function `generate_dimension_tuples` returns the
empty list — the whole step aborts — although the merge and deduplication of
the four successful sub-results is nonempty, contradicting the mandated
omit-and-continue behavior. -/
theorem generate_dimension_tuples_aborts_on_single_failure :
    generate_dimension_tuples c1Outcome = [] ∧
    dedup_tuples [⟨"occ0", "author", ["rice"], "roasting"⟩,
      ⟨"occ1", "author", ["rice"], "roasting"⟩,
      ⟨"occ3", "author", ["rice"], "roasting"⟩,
      ⟨"occ4", "author", ["rice"], "roasting"⟩] ≠ [] := by
  exact ⟨rfl, by decide⟩

/-- Claim C2: the structured LLM caller makes at most 3 completion calls with
one 1-second sleep between consecutive attempts; if some attempt among the
first 3 succeeds it returns the parsed result of that attempt after exactly the
calls needed to reach it, and if all 3 attempts fail it raises the failure of
the last attempt after exactly 3 calls. -/
theorem call_llm_retry_policy {α : Type} (attempts : Nat → Except String α) :
    (∀ a, attempts 0 = .ok a → call_llm attempts = (.ok a, 1, 0)) ∧
    (∀ e a, attempts 0 = .error e → attempts 1 = .ok a →
      call_llm attempts = (.ok a, 2, 1)) ∧
    (∀ e₀ e₁ a, attempts 0 = .error e₀ → attempts 1 = .error e₁ →
      attempts 2 = .ok a → call_llm attempts = (.ok a, 3, 2)) ∧
    (∀ e₀ e₁ e₂, attempts 0 = .error e₀ → attempts 1 = .error e₁ →
      attempts 2 = .error e₂ → call_llm attempts = (.error e₂, 3, 2)) := by
  have hr : List.range 3 = [0, 1, 2] := rfl
  refine ⟨?_, ?_, ?_, ?_⟩ <;> intros <;>
    simp_all [call_llm, hr, call_llm_loop]

/-- Witness for C2: a mock that fails twice then succeeds on the third
attempt yields the successful parsed result with exactly 3 calls made (and 2
sleeps in between). -/
theorem call_llm_retry_policy_witness :
    call_llm (fun i => if i < 2 then (.error "boom" : Except String Nat) else .ok 42) =
      (.ok 42, 3, 2) :=
  (call_llm_retry_policy
    (fun i => if i < 2 then (.error "boom" : Except String Nat) else .ok 42)).2.2.1
    "boom" "boom" 42 rfl rfl rfl

/-- Claim C3 counterexample: persisting zero records does not raise
`EmptyResultError` — the source prints "No queries to save." and returns
normally without writing. -/
theorem save_queries_empty_does_not_raise :
    save_queries_to_csv [] = SaveOutcome.printedNoWrite ∧
    SaveOutcome.printedNoWrite ≠ SaveOutcome.raisedEmptyResultError :=
  ⟨rfl, by decide⟩

/-- Claim C3 (amended): given an empty sequence of records the persister
logs and returns without raising and without writing any file; given a
non-empty sequence it writes the output file with one row per record in
order. -/
theorem save_queries_to_csv_behavior (queries : List QueryWithDimensions) :
    (queries = [] → save_queries_to_csv queries = .printedNoWrite) ∧
    (queries ≠ [] → save_queries_to_csv queries = .wroteFile (queries.map toCsvRow)) := by
  constructor <;> intro h <;>
    simp [save_queries_to_csv, List.isEmpty_iff, h]

/-- Witness for the amended C3: concrete empty and non-empty inputs. -/
theorem save_queries_to_csv_behavior_witness :
    save_queries_to_csv [] = .printedNoWrite ∧
    save_queries_to_csv [⟨"SYN001", "q", dfltTuple, 1, ""⟩] =
      .wroteFile [toCsvRow ⟨"SYN001", "q", dfltTuple, 1, ""⟩] :=
  ⟨(save_queries_to_csv_behavior []).1 rfl,
   (save_queries_to_csv_behavior [⟨"SYN001", "q", dfltTuple, 1, ""⟩]).2 (by simp)⟩

/-- Claim C7: the deduplication step keys equality of tuples on byte-identity
of their canonical serialized forms: its output equals the spec-side
first-occurrence filter (first occurrence of each distinct serialization
kept, later duplicates dropped, first-seen order over the merged input
preserved), the serializations of the output are pairwise distinct, and the
output is a sublist of the merged input. -/
theorem dedup_tuples_first_occurrence (all_tuples : List DimensionTuple) :
    dedup_tuples all_tuples = dedupFirst all_tuples ∧
    ((dedup_tuples all_tuples).map DimensionTuple.model_dump_json).Nodup ∧
    (dedup_tuples all_tuples).Sublist all_tuples := by
  refine ⟨?_, (dedup_go_nodup all_tuples []).1, dedup_go_sublist all_tuples []⟩
  rw [dedup_tuples, dedup_go_eq_dedupFirst]
  apply congrArg dedupFirst
  simp

/-- Claim C8: deduplication is idempotent — applying it to an
already-deduplicated list returns that list unchanged — and two runs of the
merge over the same multiset of sub-results (any two orderings of the same
merged tuple list) yield the same set of distinct canonical serializations. -/
theorem dedup_tuples_idempotent (l l' : List DimensionTuple) (h : l.Perm l') :
    dedup_tuples (dedup_tuples l) = dedup_tuples l ∧
    ((dedup_tuples l).map DimensionTuple.model_dump_json).toFinset =
      ((dedup_tuples l').map DimensionTuple.model_dump_json).toFinset := by
  constructor
  · exact dedup_go_of_fresh _ [] (dedup_go_nodup l []).1
      (fun t _ => List.not_mem_nil _)
  · ext s
    simp only [List.mem_toFinset]
    rw [dedup_tuples, dedup_tuples, mem_map_dedup_go, mem_map_dedup_go]
    simp only [List.not_mem_nil, not_false_iff, and_true]
    exact (h.map DimensionTuple.model_dump_json).mem_iff

/-- Witness for C8 at concrete inputs: the two orderings of a two-element
multiset of tuples. -/
theorem dedup_tuples_idempotent_witness :
    dedup_tuples (dedup_tuples [dfltTuple, c8Tup]) =
      dedup_tuples [dfltTuple, c8Tup] ∧
    ((dedup_tuples [dfltTuple, c8Tup]).map DimensionTuple.model_dump_json).toFinset =
      ((dedup_tuples [c8Tup, dfltTuple]).map DimensionTuple.model_dump_json).toFinset :=
  dedup_tuples_idempotent [dfltTuple, c8Tup] [c8Tup, dfltTuple]
    (List.Perm.swap c8Tup dfltTuple [])

/-- Claim C4: for every completion order of the parallel sub-tasks, the IDs
assigned by the aggregator in emission order are the consecutive counter
values starting at 1 — the k-th emitted record (k counted from 0) carries
the ID built from counter value k + 1 — hence strictly increasing integers
with no gaps. -/
theorem aggregator_ids_consecutive_from_one (dimension_tuples : List DimensionTuple)
    (results : Nat → Except Unit QueriesList) (order : List Nat)
    (horder : order.Perm (List.range dimension_tuples.length)) (k : Nat)
    (hk : k < (generate_queries_parallel dimension_tuples results order).length) :
    ((generate_queries_parallel dimension_tuples results order).get ⟨k, hk⟩).id =
      synFormat (k + 1) := by
  revert hk
  rw [generate_queries_parallel, merge_completed_eq_numberFrom]
  intro hk
  rw [numberFrom_get_id]
  exact congrArg synFormat (by omega)

/-- Witness for C4: in a concrete run with completion order [2, 0, 1] and
the sub-request for tuple 0 failing, the record at position 1 carries the ID
built from counter value 2. -/
theorem aggregator_ids_consecutive_from_one_witness :
    ((generate_queries_parallel cTuples cResultsOneFail [2, 0, 1]).get
        ⟨1, by decide⟩).id = synFormat 2 :=
  aggregator_ids_consecutive_from_one cTuples cResultsOneFail [2, 0, 1]
    (by decide) 1 (by decide)

/-- Claim C9: with 3 dimension tuples of which exactly one sub-request
always fails, for every completion order the run returns normally with
queries for the other two tuples only: every emitted record carries the
tuple and one returned query string of a non-failing sub-request, and every
query string returned by a non-failing sub-request appears in the output
attached to its tuple. -/
theorem query_synthesizer_tolerates_failed_subrequest (dimension_tuples : List DimensionTuple)
    (hlen : dimension_tuples.length = 3)
    (results : Nat → Except Unit QueriesList)
    (f : Nat) (hf : f < 3) (hfail : results f = .error ())
    (order : List Nat) (horder : order.Perm (List.range 3)) :
    (∀ r ∈ generate_queries_parallel dimension_tuples results order,
      ∃ i < 3, i ≠ f ∧ r.dimension_tuple = dimension_tuples.getD i dfltTuple ∧
        ∃ qs, results i = .ok qs ∧ r.query ∈ qs.queries) ∧
    (∀ i < 3, i ≠ f → ∀ qs, results i = .ok qs → ∀ s ∈ qs.queries,
      ∃ r ∈ generate_queries_parallel dimension_tuples results order,
        r.dimension_tuple = dimension_tuples.getD i dfltTuple ∧ r.query = s) := by
  have hmain := merge_completed_eq_numberFrom dimension_tuples results order 1
  constructor
  · intro r hr
    rw [generate_queries_parallel, hmain] at hr
    have hpair : (r.dimension_tuple, r.query) ∈
        flatPairs dimension_tuples results order := by
      have hm := List.mem_map_of_mem (fun x => (x.dimension_tuple, x.query)) hr
      rwa [map_proj_numberFrom] at hm
    rw [mem_flatPairs] at hpair
    obtain ⟨i, hiord, h1, h2⟩ := hpair
    have hi3 : i < 3 := List.mem_range.mp (horder.mem_iff.mp hiord)
    have hif : i ≠ f := by
      rintro rfl
      rw [hfail] at h2
      simp [generate_queries_for_tuple] at h2
    refine ⟨i, hi3, hif, h1, ?_⟩
    cases hres : results i with
    | error e => rw [hres] at h2; simp [generate_queries_for_tuple] at h2
    | ok qs =>
      rw [hres] at h2
      exact ⟨qs, rfl, by simpa [generate_queries_for_tuple] using h2⟩
  · intro i hi3 hif qs hok s hs
    have hiord : i ∈ order := horder.mem_iff.mpr (List.mem_range.mpr hi3)
    have hpair : (dimension_tuples.getD i dfltTuple, s) ∈
        flatPairs dimension_tuples results order := by
      rw [mem_flatPairs]
      exact ⟨i, hiord, rfl, by simp [generate_queries_for_tuple, hok, hs]⟩
    rw [← map_proj_numberFrom (flatPairs dimension_tuples results order) 1] at hpair
    obtain ⟨r, hr, hproj⟩ := List.mem_map.mp hpair
    refine ⟨r, ?_, ?_, ?_⟩
    · rw [generate_queries_parallel, hmain]
      exact hr
    · exact congrArg Prod.fst hproj
    · exact congrArg Prod.snd hproj

/-- Witness for C9: three concrete tuples, the sub-request for tuple 0
always failing, completion order [2, 0, 1]. -/
theorem query_synthesizer_tolerates_failed_subrequest_witness :
    (∀ r ∈ generate_queries_parallel cTuples cResultsOneFail [2, 0, 1],
      ∃ i < 3, i ≠ 0 ∧ r.dimension_tuple = cTuples.getD i dfltTuple ∧
        ∃ qs, cResultsOneFail i = .ok qs ∧ r.query ∈ qs.queries) ∧
    (∀ i < 3, i ≠ 0 → ∀ qs, cResultsOneFail i = .ok qs → ∀ s ∈ qs.queries,
      ∃ r ∈ generate_queries_parallel cTuples cResultsOneFail [2, 0, 1],
        r.dimension_tuple = cTuples.getD i dfltTuple ∧ r.query = s) :=
  query_synthesizer_tolerates_failed_subrequest cTuples rfl cResultsOneFail 0 (by decide)
    rfl [2, 0, 1] (by decide)

/-- Claim C10: for every completion order of the sub-tasks, the aggregator
output is exactly the expected aggregate: one contiguous block per
sub-request in completion order, each record wrapping one returned query
string (in the order the sub-request returned them) together with the
producing DimensionTuple, and carrying the id "SYN" followed by the shared
counter value zero-padded to at least 3 digits, the counter running
consecutively from 1 across blocks. -/
theorem generate_queries_parallel_refines_expected
    (dimension_tuples : List DimensionTuple)
    (results : Nat → Except Unit QueriesList) (order : List Nat)
    (horder : order.Perm (List.range dimension_tuples.length)) :
    generate_queries_parallel dimension_tuples results order =
      expectedAggregate dimension_tuples results order :=
  merge_completed_eq_numberFrom dimension_tuples results order 1

/-- Witness for C10 at a concrete run with completion order [2, 0, 1]. -/
theorem generate_queries_parallel_refines_expected_witness :
    generate_queries_parallel cTuples cResultsOneFail [2, 0, 1] =
      expectedAggregate cTuples cResultsOneFail [2, 0, 1] :=
  generate_queries_parallel_refines_expected cTuples cResultsOneFail [2, 0, 1]
    (by decide)

/-- Claim C5 counterexample: for a conversation that lacks a leading system
message, the returned history is not the input with exactly one assistant
entry appended — the backend also prepends the fixed system message. -/
theorem get_agent_response_not_plain_append :
    ¬ ∃ reply, get_agent_response (fun _ => "ok") [⟨"user", "hi"⟩] =
        [⟨"user", "hi"⟩] ++ [⟨"assistant", reply⟩] := by
  rintro ⟨reply, h⟩
  have hl := congrArg List.length h
  simp [get_agent_response, normalize_history] at hl

/-- Claim C5 (amended): the returned value is the normalized history — the
input itself when it already begins with a system entry, otherwise the fixed
system message prepended to the unchanged input — with exactly one assistant
entry appended at the end; in particular, when the conversation begins with
a system entry the returned value is exactly the input with one assistant
entry appended, and in every case the caller input reappears unchanged as
the tail of the normalized history (the source never mutates the caller
list: it builds new lists by concatenation, and the embedding is pure). -/
theorem get_agent_response_appends_one (complete : List Message → String)
    (messages : List Message) :
    get_agent_response complete messages =
      normalize_history messages ++
        [⟨"assistant", (complete (normalize_history messages)).trim⟩] ∧
    (normalize_history messages = messages ∨
      normalize_history messages = systemMessage :: messages) ∧
    (∀ m ms, messages = m :: ms → m.role = "system" →
      get_agent_response complete messages =
        messages ++ [⟨"assistant", (complete messages).trim⟩]) := by
  refine ⟨rfl, ?_, ?_⟩
  · cases messages with
    | nil => exact Or.inr rfl
    | cons m ms =>
      by_cases h : m.role = "system"
      · exact Or.inl (by simp [normalize_history, h])
      · exact Or.inr (by simp [normalize_history, h])
  · rintro m ms rfl hrole
    simp [get_agent_response, normalize_history, hrole]

/-- Witness for the amended C5: a conversation already beginning with a
system entry is returned with exactly one assistant entry appended. -/
theorem get_agent_response_appends_one_witness :
    get_agent_response (fun _ => "ok") [⟨"system", "s"⟩] =
      [⟨"system", "s"⟩] ++ [⟨"assistant", ("ok" : String).trim⟩] :=
  (get_agent_response_appends_one (fun _ => "ok") [⟨"system", "s"⟩]).2.2
    ⟨"system", "s"⟩ [] rfl rfl

/-- Claim C6: for every conversation whose first element does not have role
"system" (including the empty conversation), the backend sends the
conversation with the fixed default system entry prepended, and returns that
prepended conversation plus the assistant reply; for every conversation
already beginning with a system entry, no system entry is added. -/
theorem get_agent_response_system_injection (complete : List Message → String)
    (messages : List Message) :
    ((∀ m ms, messages = m :: ms → m.role ≠ "system") →
      get_agent_response complete messages =
        (systemMessage :: messages) ++
          [⟨"assistant", (complete (systemMessage :: messages)).trim⟩]) ∧
    (∀ m ms, messages = m :: ms → m.role = "system" →
      get_agent_response complete messages =
        messages ++ [⟨"assistant", (complete messages).trim⟩]) := by
  constructor
  · intro h
    cases messages with
    | nil => rfl
    | cons m ms =>
      have hrole := h m ms rfl
      simp [get_agent_response, normalize_history, hrole]
  · rintro m ms rfl hrole
    simp [get_agent_response, normalize_history, hrole]

/-- Witness for C6: a conversation starting with a user entry gets the
system entry prepended; one starting with a system entry does not. -/
theorem get_agent_response_system_injection_witness :
    get_agent_response (fun _ => "ok") [⟨"user", "hi"⟩] =
      (systemMessage :: [⟨"user", "hi"⟩]) ++
        [⟨"assistant", ("ok" : String).trim⟩] ∧
    get_agent_response (fun _ => "ok") [⟨"system", "s"⟩] =
      [⟨"system", "s"⟩] ++ [⟨"assistant", ("ok" : String).trim⟩] :=
  ⟨(get_agent_response_system_injection (fun _ => "ok") [⟨"user", "hi"⟩]).1
      (by intro m ms h; injection h with h1 _; subst h1; decide),
   (get_agent_response_system_injection (fun _ => "ok") [⟨"system", "s"⟩]).2
      ⟨"system", "s"⟩ [] rfl rfl⟩

end RecipeChatbot
